import Mathlib

/-!
Verification of the `rdotool` command interpreter (src/main.rs).

The Rust source is shallowly embedded: each Rust function is translated to a
Lean definition of the same name.  Strings are modelled as `List Char`
(Rust `&str` is UTF-8; byte lengths are recovered with `Char.utf8Size`),
fallible functions return `Except`/`Option`, and the uinput device backend is
modelled as an oracle that decides, from the history of calls made so far,
whether the next press/release/synchronize call succeeds (`none`) or fails
with an error message (`some msg`).
-/

set_option maxRecDepth 10000

/-- The `uinput::event::keyboard::Key` constructors used by the program. -/
inductive Key where
  | A | B | C | D | E | F | G | H | I | J | K | L | M
  | N | O | P | Q | R | S | T | U | V | W | X | Y | Z
  | _0 | _1 | _2 | _3 | _4 | _5 | _6 | _7 | _8 | _9
  | F1 | F2 | F3 | F4 | F5 | F6 | F7 | F8 | F9 | F10 | F11 | F12
  | F13 | F14 | F15 | F16 | F17 | F18 | F19 | F20 | F21 | F22 | F23 | F24
  | Space | Enter | Tab | BackSpace | Esc | Delete | Insert | Home | End
  | PageUp | PageDown | ScrollLock | SysRq
  | Left | Right | Up | Down
  | LeftShift | RightShift | LeftControl | RightControl
  | LeftAlt | RightAlt | LeftMeta | RightMeta
  | CapsLock | NumLock
  | Minus | Equal | LeftBrace | RightBrace | SemiColon | Apostrophe
  | Grave | BackSlash | Comma | Dot | Slash
deriving DecidableEq, Repr

/-- The `uinput::event::keyboard::Misc` constructors used by the program. -/
inductive Misc where
  | Pause | Print
deriving DecidableEq, Repr

/-- The `uinput::event::keyboard::Keyboard` sum used as the opaque key id. -/
inductive Keyboard where
  | key (k : Key)
  | misc (m : Misc)
deriving DecidableEq, Repr

/-- `struct Chord` from src/main.rs: five modifier flags plus the base key. -/
structure Chord where
  super_key : Bool
  altgr : Bool
  ctrl : Bool
  alt : Bool
  shift : Bool
  key : Keyboard
deriving DecidableEq, Repr

/-- `Chord::new`: all modifier flags start out false. -/
def Chord.new (key : Keyboard) : Chord :=
  { super_key := false, altgr := false, ctrl := false, alt := false
    shift := false, key := key }

/-- `init_linux_keys` from src/main.rs: the name → key registry, in source
order.  All names are distinct, so an association-list lookup coincides with
the Rust `HashMap` built by `collect`. -/
def init_linux_keys : List (String × Keyboard) := [
  ("a", Keyboard.key Key.A), ("b", Keyboard.key Key.B),
  ("c", Keyboard.key Key.C), ("d", Keyboard.key Key.D),
  ("e", Keyboard.key Key.E), ("f", Keyboard.key Key.F),
  ("g", Keyboard.key Key.G), ("h", Keyboard.key Key.H),
  ("i", Keyboard.key Key.I), ("j", Keyboard.key Key.J),
  ("k", Keyboard.key Key.K), ("l", Keyboard.key Key.L),
  ("m", Keyboard.key Key.M), ("n", Keyboard.key Key.N),
  ("o", Keyboard.key Key.O), ("p", Keyboard.key Key.P),
  ("q", Keyboard.key Key.Q), ("r", Keyboard.key Key.R),
  ("s", Keyboard.key Key.S), ("t", Keyboard.key Key.T),
  ("u", Keyboard.key Key.U), ("v", Keyboard.key Key.V),
  ("w", Keyboard.key Key.W), ("x", Keyboard.key Key.X),
  ("y", Keyboard.key Key.Y), ("z", Keyboard.key Key.Z),
  ("0", Keyboard.key Key._0), ("1", Keyboard.key Key._1),
  ("2", Keyboard.key Key._2), ("3", Keyboard.key Key._3),
  ("4", Keyboard.key Key._4), ("5", Keyboard.key Key._5),
  ("6", Keyboard.key Key._6), ("7", Keyboard.key Key._7),
  ("8", Keyboard.key Key._8), ("9", Keyboard.key Key._9),
  ("f1", Keyboard.key Key.F1), ("f2", Keyboard.key Key.F2),
  ("f3", Keyboard.key Key.F3), ("f4", Keyboard.key Key.F4),
  ("f5", Keyboard.key Key.F5), ("f6", Keyboard.key Key.F6),
  ("f7", Keyboard.key Key.F7), ("f8", Keyboard.key Key.F8),
  ("f9", Keyboard.key Key.F9), ("f10", Keyboard.key Key.F10),
  ("f11", Keyboard.key Key.F11), ("f12", Keyboard.key Key.F12),
  ("f13", Keyboard.key Key.F13), ("f14", Keyboard.key Key.F14),
  ("f15", Keyboard.key Key.F15), ("f16", Keyboard.key Key.F16),
  ("f17", Keyboard.key Key.F17), ("f18", Keyboard.key Key.F18),
  ("f19", Keyboard.key Key.F19), ("f20", Keyboard.key Key.F20),
  ("f21", Keyboard.key Key.F21), ("f22", Keyboard.key Key.F22),
  ("f23", Keyboard.key Key.F23), ("f24", Keyboard.key Key.F24),
  ("space", Keyboard.key Key.Space), ("enter", Keyboard.key Key.Enter),
  ("return", Keyboard.key Key.Enter), ("tab", Keyboard.key Key.Tab),
  ("backspace", Keyboard.key Key.BackSpace), ("escape", Keyboard.key Key.Esc),
  ("esc", Keyboard.key Key.Esc), ("delete", Keyboard.key Key.Delete),
  ("insert", Keyboard.key Key.Insert), ("home", Keyboard.key Key.Home),
  ("end", Keyboard.key Key.End), ("pageup", Keyboard.key Key.PageUp),
  ("pagedown", Keyboard.key Key.PageDown), ("pause", Keyboard.misc Misc.Pause),
  ("scrolllock", Keyboard.key Key.ScrollLock), ("sysrq", Keyboard.key Key.SysRq),
  ("print", Keyboard.misc Misc.Print), ("left", Keyboard.key Key.Left),
  ("right", Keyboard.key Key.Right), ("up", Keyboard.key Key.Up),
  ("down", Keyboard.key Key.Down),
  ("leftshift", Keyboard.key Key.LeftShift),
  ("rightshift", Keyboard.key Key.RightShift),
  ("leftctrl", Keyboard.key Key.LeftControl),
  ("rightctrl", Keyboard.key Key.RightControl),
  ("leftalt", Keyboard.key Key.LeftAlt),
  ("rightalt", Keyboard.key Key.RightAlt),
  ("leftmeta", Keyboard.key Key.LeftMeta),
  ("rightmeta", Keyboard.key Key.RightMeta),
  ("capslock", Keyboard.key Key.CapsLock),
  ("numlock", Keyboard.key Key.NumLock),
  ("minus", Keyboard.key Key.Minus), ("equal", Keyboard.key Key.Equal),
  ("leftbrace", Keyboard.key Key.LeftBrace),
  ("rightbrace", Keyboard.key Key.RightBrace),
  ("semicolon", Keyboard.key Key.SemiColon),
  ("apostrophe", Keyboard.key Key.Apostrophe),
  ("grave", Keyboard.key Key.Grave),
  ("backslash", Keyboard.key Key.BackSlash),
  ("comma", Keyboard.key Key.Comma), ("dot", Keyboard.key Key.Dot),
  ("slash", Keyboard.key Key.Slash)]

/-- Whitespace as used by the modelled string helpers.  Rust uses full
Unicode whitespace; the commands and payloads in every claim only involve
ASCII whitespace, on which the two coincide. -/
def isWS (c : Char) : Bool := c.isWhitespace

/-- ASCII digit test, used by the modelled numeric parser. -/
def isDigit (c : Char) : Bool := decide ('0' ≤ c) && decide (c ≤ '9')

/-- Model of `char`-level lowercasing as performed by Rust
`str::to_lowercase`, which does full Unicode lowercasing.  Beyond ASCII, the
only code point whose Unicode lowercase form is the name of a registry entry
or a modifier word is U+212A (KELVIN SIGN), which lowercases to `k`; every
other non-ASCII character is left unchanged by the model, which is
extensionally faithful for every registry lookup and modifier comparison the
program performs (they all compare against pure-ASCII strings). -/
def rustToLowerChar (c : Char) : Char :=
  if 65 ≤ c.toNat && c.toNat ≤ 90 then Char.ofNat (c.toNat + 32)
  else if c = Char.ofNat 0x212A then 'k'
  else c

/-- `str::to_lowercase`, character by character (the modelled code points all
lowercase to a single character). -/
def toLowerStr (s : List Char) : List Char := s.map rustToLowerChar

/-- Model of Rust `char::is_uppercase`.  In `parse_chord` it is only ever
evaluated on single-byte (hence ASCII) characters, where Unicode uppercase
coincides with ASCII `A`-`Z` (code points 65-90). -/
def rustIsUppercase (c : Char) : Bool := 65 ≤ c.toNat && c.toNat ≤ 90

/-- The number of bytes of the UTF-8 encoding of one character (same values
as `Char.utf8Size`, stated over `Nat` code points). -/
def charUtf8Size (c : Char) : Nat :=
  if c.toNat ≤ 0x7F then 1
  else if c.toNat ≤ 0x7FF then 2
  else if c.toNat ≤ 0xFFFF then 3
  else 4

/-- UTF-8 byte length of a string, as returned by Rust `str::len`. -/
def utf8Len (s : List Char) : Nat := (s.map charUtf8Size).sum

/-- Rust `str::split('+')`: always returns at least one (possibly empty)
segment; `""` gives `[""]` and `"+"` gives `["", ""]`. -/
def splitPlus : List Char → List (List Char)
  | [] => [[]]
  | c :: cs =>
    let r := splitPlus cs
    if c = '+' then [] :: r
    else (c :: r.headD []) :: r.tail

/-- Rust `str::split_whitespace`, with an accumulator for the current token
(kept reversed). -/
def splitWSAux : List Char → List Char → List (List Char)
  | [], acc => if acc = [] then [] else [acc.reverse]
  | c :: cs, acc =>
    if isWS c then
      if acc = [] then splitWSAux cs [] else acc.reverse :: splitWSAux cs []
    else splitWSAux cs (c :: acc)

/-- Rust `str::split_whitespace`: the maximal non-whitespace tokens. -/
def splitWS (s : List Char) : List (List Char) := splitWSAux s []

/-- Rust `str::trim_start` (leading whitespace removed). -/
def trimStart (s : List Char) : List Char := s.dropWhile isWS

/-- Rust `str::trim` (whitespace removed at both ends). -/
def trimBoth (s : List Char) : List Char :=
  ((s.dropWhile isWS).reverse.dropWhile isWS).reverse

/-- The modifier loop of `parse_chord` (src/main.rs lines 127-136): each
leading segment is lowercased and matched against the modifier vocabulary;
an unknown segment aborts with the `unknown modifier` error carrying the raw
segment text. -/
def applyMods : List (List Char) → Chord → Except String Chord
  | [], chord => .ok chord
  | p :: ps, chord =>
    let lp := (toLowerStr p).asString
    if lp = "super" then applyMods ps { chord with super_key := true }
    else if lp = "altgr" then applyMods ps { chord with altgr := true }
    else if lp = "ctrl" then applyMods ps { chord with ctrl := true }
    else if lp = "control" then applyMods ps { chord with ctrl := true }
    else if lp = "alt" then applyMods ps { chord with alt := true }
    else if lp = "shift" then applyMods ps { chord with shift := true }
    else .error ("unknown modifier: " ++ p.asString)

/-- `parse_chord` from src/main.rs: split on `+`, look the last segment up
(lowercased) in the registry, set shift implicitly for a single-byte
uppercase key segment, then apply the modifier segments. -/
def parse_chord (chord_str : List Char) (linux_keys : List (String × Keyboard)) :
    Except String Chord :=
  let parts := splitPlus chord_str
  if parts = [] then .error ("empty chord")
  else
    let key_part := parts.getLastD []
    match List.lookup (toLowerStr key_part).asString linux_keys with
    | none => .error ("impossible key for layout: " ++ key_part.asString)
    | some key =>
      let chord := Chord.new key
      let chord :=
        if utf8Len key_part == 1 && rustIsUppercase (key_part.headD ' ') then
          { chord with shift := true }
        else chord
      applyMods parts.dropLast chord

/-- The fixed character table of `char_to_chord` (src/main.rs lines 266-307):
key name plus implied shift, or `none` for untypeable characters. -/
def charTable (ch : Char) : Option (String × Bool) :=
  if decide ('a' ≤ ch) && decide (ch ≤ 'z') then some (ch.toString, false)
  else if decide ('A' ≤ ch) && decide (ch ≤ 'Z') then
    some ((rustToLowerChar ch).toString, true)
  else if decide ('0' ≤ ch) && decide (ch ≤ '9') then some (ch.toString, false)
  else if ch = ' ' then some ("space", false)
  else if ch = '\n' then some ("enter", false)
  else if ch = '\t' then some ("tab", false)
  else if ch = '-' then some ("minus", false)
  else if ch = '=' then some ("equal", false)
  else if ch = '[' then some ("leftbrace", false)
  else if ch = ']' then some ("rightbrace", false)
  else if ch = ';' then some ("semicolon", false)
  else if ch = Char.ofNat 39 then some ("apostrophe", false)
  else if ch = Char.ofNat 96 then some ("grave", false)
  else if ch = Char.ofNat 92 then some ("backslash", false)
  else if ch = ',' then some ("comma", false)
  else if ch = '.' then some ("dot", false)
  else if ch = '/' then some ("slash", false)
  else if ch = '!' then some ("1", true)
  else if ch = '@' then some ("2", true)
  else if ch = '#' then some ("3", true)
  else if ch = '$' then some ("4", true)
  else if ch = '%' then some ("5", true)
  else if ch = '^' then some ("6", true)
  else if ch = '&' then some ("7", true)
  else if ch = '*' then some ("8", true)
  else if ch = '(' then some ("9", true)
  else if ch = ')' then some ("0", true)
  else if ch = '_' then some ("minus", true)
  else if ch = '+' then some ("equal", true)
  else if ch = Char.ofNat 123 then some ("leftbrace", true)
  else if ch = Char.ofNat 125 then some ("rightbrace", true)
  else if ch = ':' then some ("semicolon", true)
  else if ch = Char.ofNat 34 then some ("apostrophe", true)
  else if ch = '~' then some ("grave", true)
  else if ch = '|' then some ("backslash", true)
  else if ch = '<' then some ("comma", true)
  else if ch = '>' then some ("dot", true)
  else if ch = '?' then some ("slash", true)
  else none

/-- `char_to_chord` from src/main.rs: translate one character via the fixed
table, then resolve the key name in the registry. -/
def char_to_chord (ch : Char) (linux_keys : List (String × Keyboard)) :
    Option Chord :=
  match charTable ch with
  | none => none
  | some (key_str, needs_shift) =>
    match List.lookup key_str linux_keys with
    | none => none
    | some key => some { Chord.new key with shift := needs_shift }

/-- One call against the `uinput::Device` backend. -/
inductive BCall where
  | press (k : Keyboard)
  | release (k : Keyboard)
  | sync
deriving DecidableEq, Repr

/-- The backend environment: given the history of calls already made and the
next call, report success (`none`) or a backend error message (`some msg`).
This models the fallibility of `Device::press`/`release`/`synchronize`. -/
abbrev Backend := List BCall → BCall → Option String

/-- The always-succeeding backend. -/
def allOk : Backend := fun _ _ => none

/-- One `device.call(...)?` step of `key_down`/`key_up`: if an earlier call
already failed the step is skipped (the `?` operator returned early);
otherwise, if `cond` holds the call is attempted and its outcome recorded.
`hist` is the backend history before the whole sequence; `acc.1` holds the
calls attempted by the sequence so far. -/
def seqStep (ok : Backend) (hist : List BCall) (acc : List BCall × Option String)
    (cond : Bool) (c : BCall) : List BCall × Option String :=
  match acc with
  | (d, some e) => (d, some e)
  | (d, none) =>
    if cond then (d ++ [c], ok (hist ++ d) c) else (d, none)

/-- `Chord::key_down` (src/main.rs lines 34-53): press each active modifier
in the order super, altgr, ctrl, alt, shift, then the base key, then
synchronize; every call uses `?`, so the first failure ends the sequence.
Returns the calls attempted and the first error, if any. -/
def key_down (ok : Backend) (hist : List BCall) (chord : Chord) :
    List BCall × Option String :=
  let s := ([], none)
  let s := seqStep ok hist s chord.super_key (.press (.key .LeftMeta))
  let s := seqStep ok hist s chord.altgr (.press (.key .RightAlt))
  let s := seqStep ok hist s chord.ctrl (.press (.key .LeftControl))
  let s := seqStep ok hist s chord.alt (.press (.key .LeftAlt))
  let s := seqStep ok hist s chord.shift (.press (.key .LeftShift))
  let s := seqStep ok hist s true (.press chord.key)
  seqStep ok hist s true .sync

/-- `Chord::key_up` (src/main.rs lines 55-74): release the base key, then the
active modifiers in the order shift, alt, ctrl, altgr, super, then
synchronize; every call uses `?`, so the first failure ends the sequence. -/
def key_up (ok : Backend) (hist : List BCall) (chord : Chord) :
    List BCall × Option String :=
  let s := ([], none)
  let s := seqStep ok hist s true (.release chord.key)
  let s := seqStep ok hist s chord.shift (.release (.key .LeftShift))
  let s := seqStep ok hist s chord.alt (.release (.key .LeftAlt))
  let s := seqStep ok hist s chord.ctrl (.release (.key .LeftControl))
  let s := seqStep ok hist s chord.altgr (.release (.key .RightAlt))
  let s := seqStep ok hist s chord.super_key (.release (.key .LeftMeta))
  seqStep ok hist s true .sync

/-- The press sequence the specification prescribes for a chord: the active
modifiers in the fixed order super, altgr, ctrl, alt, shift, then the base
key, then one synchronize. -/
def specDownSeq (chord : Chord) : List BCall :=
  (if chord.super_key then [BCall.press (.key .LeftMeta)] else []) ++
  (if chord.altgr then [BCall.press (.key .RightAlt)] else []) ++
  (if chord.ctrl then [BCall.press (.key .LeftControl)] else []) ++
  (if chord.alt then [BCall.press (.key .LeftAlt)] else []) ++
  (if chord.shift then [BCall.press (.key .LeftShift)] else []) ++
  [BCall.press chord.key, BCall.sync]

/-- The release sequence the specification prescribes for a chord: the base
key first, then the active modifiers in the reverse order shift, alt, ctrl,
altgr, super, then one synchronize. -/
def specUpSeq (chord : Chord) : List BCall :=
  [BCall.release chord.key] ++
  (if chord.shift then [BCall.release (.key .LeftShift)] else []) ++
  (if chord.alt then [BCall.release (.key .LeftAlt)] else []) ++
  (if chord.ctrl then [BCall.release (.key .LeftControl)] else []) ++
  (if chord.altgr then [BCall.release (.key .RightAlt)] else []) ++
  (if chord.super_key then [BCall.release (.key .LeftMeta)] else []) ++
  [BCall.sync]

/-- Attempt a fixed list of backend calls in order, stopping at the first
failure (the calls after it are not attempted).  Returns the attempted calls
and the first error, if any. -/
def attemptSeq (ok : Backend) (hist : List BCall) : List BCall → List BCall × Option String
  | [] => ([], none)
  | c :: cs =>
    match ok hist c with
    | some e => ([c], some e)
    | none =>
      let r := attemptSeq ok (hist ++ [c]) cs
      (c :: r.1, r.2)

/-- One observable event of the interpreter: a backend call, a sleep of some
whole number of milliseconds, or a warning on the diagnostic stream. -/
inductive Ev where
  | call (c : BCall)
  | sleep (ms : Nat)
  | warn (msg : String)
deriving DecidableEq, Repr

/-- The mutable session state of `run`: `keydelay` and `typedelay` in whole
milliseconds (`Duration::from_millis`).  `keyhold` and `typehold` are fixed
at 8 ms and never mutated, so they are kept as constants. -/
structure St where
  keydelay : Nat
  typedelay : Nat
deriving DecidableEq, Repr

/-- The initial session state: `keydelay` and `typedelay` start at 2 ms. -/
def initSt : St := { keydelay := 2, typedelay := 2 }

/-- `keyhold` (fixed at 8 ms in src/main.rs line 359). -/
def keyhold : Nat := 8

/-- `typehold` (fixed at 8 ms in src/main.rs line 361). -/
def typehold : Nat := 8

/-- Result of interpreting one input line: either the new state, backend
history and emitted events, or a fatal abort (a Rust `panic`) with its
message. -/
inductive Outcome where
  | ok (st : St) (hist : List BCall) (evs : List Ev)
  | fatal (msg : String)
deriving DecidableEq, Repr

/-- Value of a digit string, most significant first. -/
def digitsToNat (s : List Char) : Nat :=
  s.foldl (fun n c => 10 * n + (c.toNat - 48)) 0

/-- The exponent suffix of a float literal (what follows `e`/`E`): an
optional sign followed by one or more digits, consuming the whole
remainder. -/
def parseExpSuffix (r : List Char) : Option Int :=
  let signAndRest : Bool × List Char :=
    match r with
    | '-' :: r2 => (true, r2)
    | '+' :: r2 => (false, r2)
    | r2 => (false, r2)
  let ds := signAndRest.2
  if ds = [] then none
  else if ds.all isDigit then
    some (if signAndRest.1 then -(digitsToNat ds : Int) else (digitsToNat ds : Int))
  else none

/-- Model of Rust `<f64 as FromStr>::parse` on its finite-number grammar: an
optional sign, decimal digits with an optional fractional part, and an
optional `e`/`E` exponent, valued exactly as a rational.  The `inf`/`NaN`
spellings Rust also accepts have no finite value and are rejected by the
model; no claim involves them.  Rust parses correctly rounded to the nearest
binary64 value, so on every payload whose exact decimal value is
representable in binary64 (`repF64` below) the parsed float equals this
exact rational; the keydelay theorem is scoped to that fragment. -/
def parseDelay (s : List Char) : Option Rat :=
  let signAndRest : Bool × List Char :=
    match s with
    | '-' :: r => (true, r)
    | '+' :: r => (false, r)
    | r => (false, r)
  let neg := signAndRest.1
  let rest := signAndRest.2
  let ip := rest.takeWhile isDigit
  let rest2 := rest.dropWhile isDigit
  let fracAndRest : List Char × List Char :=
    match rest2 with
    | '.' :: r => (r.takeWhile isDigit, r.dropWhile isDigit)
    | r => ([], r)
  let frac := fracAndRest.1
  let rest3 := fracAndRest.2
  if ip = [] && frac = [] then none
  else
    let expOpt : Option Int :=
      match rest3 with
      | [] => some 0
      | 'e' :: r => parseExpSuffix r
      | 'E' :: r => parseExpSuffix r
      | _ => none
    match expOpt with
    | none => none
    | some ex =>
      let mag : Rat := ((digitsToNat ip : Rat) +
        (digitsToNat frac : Rat) / ((10 : Rat) ^ frac.length)) * (10 : Rat) ^ ex
      some (if neg then -mag else mag)

/-- The finite rational values exactly representable as binary64 floating
point numbers: `m * 2^e` with a 53-bit mantissa and the binary64 exponent
range.  Rust `parse::<f64>` is correctly rounded, so on a payload whose
exact decimal value satisfies `repF64` the parsed float is exactly that
value, and the exact-rational model of `parseDelay` coincides with the
program. -/
def repF64 (q : Rat) : Prop :=
  ∃ m e : Int, q = (m : Rat) * (2 : Rat) ^ e ∧
    m.natAbs < 2 ^ 53 ∧ -1074 ≤ e ∧ e ≤ 971

/-- Rust `f64 as u64` cast applied to the parsed delay: truncation toward
zero, saturating at the `u64` bounds (negative values give 0). -/
def f64ToU64 (q : Rat) : Nat :=
  if q < 0 then 0 else min (Int.toNat ⌊q⌋) (2 ^ 64 - 1)

/-- The token loop of the `key` branch (src/main.rs lines 382-398): for each
field, parse it (a parse failure warns and skips the field), otherwise press
the chord, warn if the press failed, sleep `keyhold`, release the chord,
warn if the release failed, sleep `keydelay`. -/
def keyFields (ok : Backend) (st : St) (hist : List BCall) :
    List (List Char) → List BCall × List Ev
  | [] => (hist, [])
  | f :: fs =>
    match parse_chord f init_linux_keys with
    | .error e =>
      let r := keyFields ok st hist fs
      (r.1, Ev.warn e :: r.2)
    | .ok chord =>
      let down := key_down ok hist chord
      let hist1 := hist ++ down.1
      let downEvs := down.1.map Ev.call ++
        (match down.2 with
         | some e => [Ev.warn ("key down error: " ++ e)]
         | none => [])
      let up := key_up ok hist1 chord
      let hist2 := hist1 ++ up.1
      let upEvs := up.1.map Ev.call ++
        (match up.2 with
         | some e => [Ev.warn ("key up error: " ++ e)]
         | none => [])
      let r := keyFields ok st hist2 fs
      (r.1, downEvs ++ [Ev.sleep keyhold] ++ upEvs ++ [Ev.sleep st.keydelay] ++ r.2)

/-- The token loop of the `keydown` branch (src/main.rs lines 399-411). -/
def downFields (ok : Backend) (st : St) (hist : List BCall) :
    List (List Char) → List BCall × List Ev
  | [] => (hist, [])
  | f :: fs =>
    match parse_chord f init_linux_keys with
    | .error e =>
      let r := downFields ok st hist fs
      (r.1, Ev.warn e :: r.2)
    | .ok chord =>
      let down := key_down ok hist chord
      let hist1 := hist ++ down.1
      let downEvs := down.1.map Ev.call ++
        (match down.2 with
         | some e => [Ev.warn ("key down error: " ++ e)]
         | none => [])
      let r := downFields ok st hist1 fs
      (r.1, downEvs ++ [Ev.sleep st.keydelay] ++ r.2)

/-- The token loop of the `keyup` branch (src/main.rs lines 412-424). -/
def upFields (ok : Backend) (st : St) (hist : List BCall) :
    List (List Char) → List BCall × List Ev
  | [] => (hist, [])
  | f :: fs =>
    match parse_chord f init_linux_keys with
    | .error e =>
      let r := upFields ok st hist fs
      (r.1, Ev.warn e :: r.2)
    | .ok chord =>
      let up := key_up ok hist chord
      let hist1 := hist ++ up.1
      let upEvs := up.1.map Ev.call ++
        (match up.2 with
         | some e => [Ev.warn ("key up error: " ++ e)]
         | none => [])
      let r := upFields ok st hist1 fs
      (r.1, upEvs ++ [Ev.sleep st.keydelay] ++ r.2)

/-- The character loop of the `type` branch (src/main.rs lines 432-450): an
untranslatable character warns and is skipped; a failed press warns and
`continue`s (skipping the hold, the release and the delay for that
character); otherwise sleep `typehold`, release (warning on failure), and
sleep `typedelay`. -/
def typeChars (ok : Backend) (st : St) (hist : List BCall) :
    List Char → List BCall × List Ev
  | [] => (hist, [])
  | ch :: rest =>
    match char_to_chord ch init_linux_keys with
    | none =>
      let r := typeChars ok st hist rest
      (r.1, Ev.warn ("cannot type character: " ++ ch.toString) :: r.2)
    | some chord =>
      let down := key_down ok hist chord
      let hist1 := hist ++ down.1
      match down.2 with
      | some e =>
        let r := typeChars ok st hist1 rest
        (r.1, down.1.map Ev.call ++ [Ev.warn ("type error: " ++ e)] ++ r.2)
      | none =>
        let up := key_up ok hist1 chord
        let hist2 := hist1 ++ up.1
        let upEvs := up.1.map Ev.call ++
          (match up.2 with
           | some e => [Ev.warn ("type error: " ++ e)]
           | none => [])
        let r := typeChars ok st hist2 rest
        (r.1, down.1.map Ev.call ++ [Ev.sleep typehold] ++ upEvs ++
          [Ev.sleep st.typedelay] ++ r.2)

/-- Interpret one input line (the body of the `for line in reader.lines()`
loop, src/main.rs lines 366-461).  The line is trimmed at the start; an
empty result is a no-op; otherwise the first whitespace-separated token is
the opcode.  For `keydelay`/`type`/`typedelay` the payload is the raw
remainder after the opcode token and the single following separator
character (`SplitWhitespace::remainder`), `none` when the line ends at the
opcode; a missing payload and an unrecognized opcode are Rust `panic!`s,
modelled as `Outcome.fatal` with the panic message. -/
def doLine (ok : Backend) (st : St) (hist : List BCall) (line : List Char) :
    Outcome :=
  let text := trimStart line
  if text = [] then .ok st hist []
  else
    match splitWS text with
    | [] => .fatal ("Invalid command")
    | op :: _ =>
      let opStr := op.asString
      let restRaw := text.dropWhile (fun c => !isWS c)
      let fields := splitWS restRaw
      let remainder : Option (List Char) :=
        match restRaw with
        | [] => none
        | _ :: r => some r
      if opStr = "key" then
        let r := keyFields ok st hist fields
        .ok st r.1 r.2
      else if opStr = "keydown" then
        let r := downFields ok st hist fields
        .ok st r.1 r.2
      else if opStr = "keyup" then
        let r := upFields ok st hist fields
        .ok st r.1 r.2
      else if opStr = "keydelay" then
        match remainder with
        | none => .fatal ("Delay missing")
        | some s =>
          match parseDelay (trimBoth s) with
          | some d => .ok { st with keydelay := f64ToU64 d } hist []
          | none => .ok st hist [Ev.warn ("invalid delay: " ++ text.asString)]
      else if opStr = "type" then
        match remainder with
        | none => .fatal ("Missing string to type")
        | some s =>
          let r := typeChars ok st hist s
          .ok st r.1 r.2
      else if opStr = "typedelay" then
        match remainder with
        | none => .fatal ("Missing typedelay arguments")
        | some s =>
          match parseDelay (trimBoth s) with
          | some d => .ok { st with typedelay := f64ToU64 d } hist []
          | none => .ok st hist [Ev.warn ("invalid delay: " ++ text.asString)]
      else .fatal ("Unknown operation")

/-- Interpret a list of input lines in order, accumulating the emitted
events; a fatal line aborts the session (its predecessors' events stand).
Returns the final state, the full event trace and the fatal message, if
any. -/
def runLines (ok : Backend) (st : St) (hist : List BCall) :
    List (List Char) → St × List Ev × Option String
  | [] => (st, [], none)
  | l :: ls =>
    match doLine ok st hist l with
    | .fatal m => (st, [], some m)
    | .ok st1 hist1 evs =>
      let r := runLines ok st1 hist1 ls
      (r.1, evs ++ r.2.1, r.2.2)

/-! ### Helper lemmas about the call sequences -/

theorem seqStep_false (ok : Backend) (hist : List BCall)
    (acc : List BCall × Option String) (c : BCall) :
    seqStep ok hist acc false c = acc := by
  rcases acc with ⟨d, _ | e⟩ <;> simp [seqStep]

theorem attemptSeq_single (ok : Backend) (hist : List BCall) (c : BCall) :
    attemptSeq ok hist [c] = ([c], ok hist c) := by
  cases h : ok hist c <;> simp [attemptSeq, h]

theorem attemptSeq_sound (ok : Backend) (hist : List BCall) (L : List BCall)
    (h : (attemptSeq ok hist L).2 = none) : (attemptSeq ok hist L).1 = L := by
  induction L generalizing hist with
  | nil => rfl
  | cons c cs ih =>
    rcases hc : ok hist c with _ | e
    · simp only [attemptSeq, hc] at h ⊢
      rw [ih (hist ++ [c]) h]
    · simp [attemptSeq, hc] at h

theorem attemptSeq_cons_none (ok : Backend) (hist : List BCall) (c : BCall)
    (cs : List BCall) (h : ok hist c = none) :
    attemptSeq ok hist (c :: cs) =
      (c :: (attemptSeq ok (hist ++ [c]) cs).1,
       (attemptSeq ok (hist ++ [c]) cs).2) := by
  simp [attemptSeq, h]

theorem attemptSeq_cons_some (ok : Backend) (hist : List BCall) (c : BCall)
    (cs : List BCall) (e : String) (h : ok hist c = some e) :
    attemptSeq ok hist (c :: cs) = ([c], some e) := by
  simp [attemptSeq, h]

theorem attemptSeq_append (ok : Backend) (hist : List BCall) (L M : List BCall) :
    attemptSeq ok hist (L ++ M) =
      if (attemptSeq ok hist L).2 = none then
        (L ++ (attemptSeq ok (hist ++ L) M).1, (attemptSeq ok (hist ++ L) M).2)
      else attemptSeq ok hist L := by
  induction L generalizing hist with
  | nil => simp [attemptSeq]
  | cons c cs ih =>
    rcases hc : ok hist c with _ | e
    · rw [List.cons_append, attemptSeq_cons_none ok hist c (cs ++ M) hc,
        attemptSeq_cons_none ok hist c cs hc, ih (hist ++ [c])]
      by_cases h2 : (attemptSeq ok (hist ++ [c]) cs).2 = none
      · rw [if_pos h2, if_pos h2]
        simp [List.append_assoc]
      · rw [if_neg h2, if_neg h2]
    · rw [List.cons_append, attemptSeq_cons_some ok hist c (cs ++ M) e hc,
        attemptSeq_cons_some ok hist c cs e hc]
      simp

theorem seqStep_attempt (ok : Backend) (hist : List BCall) (L : List BCall)
    (cond : Bool) (c : BCall) :
    seqStep ok hist (attemptSeq ok hist L) cond c =
      attemptSeq ok hist (L ++ (if cond then [c] else [])) := by
  cases cond
  · simp [seqStep_false]
  · simp only [if_pos]
    rw [attemptSeq_append]
    rcases hacc : attemptSeq ok hist L with ⟨d, r⟩
    rcases r with _ | e
    · have hd : d = L := by
        have := attemptSeq_sound ok hist L (by rw [hacc])
        rw [hacc] at this; exact this
      subst hd
      simp [seqStep, hacc, attemptSeq_single]
    · simp [seqStep, hacc]

theorem key_down_eq_attempt (ok : Backend) (hist : List BCall) (chord : Chord) :
    key_down ok hist chord = attemptSeq ok hist (specDownSeq chord) := by
  have h0 : (([], none) : List BCall × Option String) = attemptSeq ok hist [] := rfl
  simp only [key_down, specDownSeq]
  rw [h0, seqStep_attempt, seqStep_attempt, seqStep_attempt, seqStep_attempt,
      seqStep_attempt, seqStep_attempt, seqStep_attempt]
  simp [List.append_assoc]

theorem key_up_eq_attempt (ok : Backend) (hist : List BCall) (chord : Chord) :
    key_up ok hist chord = attemptSeq ok hist (specUpSeq chord) := by
  have h0 : (([], none) : List BCall × Option String) = attemptSeq ok hist [] := rfl
  simp only [key_up, specUpSeq]
  rw [h0, seqStep_attempt, seqStep_attempt, seqStep_attempt, seqStep_attempt,
      seqStep_attempt, seqStep_attempt, seqStep_attempt]
  simp [List.append_assoc]

theorem attemptSeq_allOk (hist : List BCall) (L : List BCall) :
    attemptSeq allOk hist L = (L, none) := by
  induction L generalizing hist with
  | nil => rfl
  | cons c cs ih => simp [attemptSeq, allOk, ih]

/-- C1: for every chord, `press` (key_down) issues backend press calls for
exactly the active modifiers in the fixed order super, altgr, ctrl, alt,
shift, then a press of the base key, then one synchronize call; `release`
(key_up) issues a release of the base key first, then releases of the active
modifiers in the reverse order shift, alt, ctrl, altgr, super, then one
synchronize call.  Stated against a backend where every call succeeds (the
failing case is settled with C2). -/
theorem c1_press_release_order (chord : Chord) (hist : List BCall) :
    key_down allOk hist chord = (specDownSeq chord, none) ∧
    key_up allOk hist chord = (specUpSeq chord, none) := by
  rw [key_down_eq_attempt, key_up_eq_attempt, attemptSeq_allOk, attemptSeq_allOk]
  exact ⟨rfl, rfl⟩

/-- The chord `ctrl+c`, used as a concrete test input. -/
def ctrlC : Chord :=
  { super_key := false, altgr := false, ctrl := true, alt := false
    shift := false, key := Keyboard.key Key.C }

/-- A backend on which releasing the `c` key fails and every other call
succeeds. -/
def failRelC : Backend := fun _ c =>
  if c = BCall.release (Keyboard.key Key.C) then some ("backend failure")
  else none

/-- C2 counterexample: with the chord `ctrl+c` and a backend whose release
of the base key `c` fails, `key_up` attempts only that one failing call —
the release of the still-held modifier LeftControl and the synchronize are
never attempted, contradicting the claimed best-effort behavior. -/
theorem c2_counterexample :
    key_up failRelC [] ctrlC =
      ([BCall.release (Keyboard.key Key.C)], some ("backend failure")) ∧
    BCall.release (Keyboard.key Key.LeftControl) ∉ (key_up failRelC [] ctrlC).1 ∧
    BCall.sync ∉ (key_up failRelC [] ctrlC).1 := by
  refine ⟨by decide, ?_, ?_⟩ <;> decide

/-- C2 (amended): when a backend call fails during a chord's press or
release sequence, the `?` operator aborts the remaining calls of that same
sequence (they are not attempted): both sequences equal a run of their fixed
call list that stops at the first failure.  The error then propagates to the
interpreter, which emits a single warning for the sequence and continues the
session — concretely, on `key ctrl+c` with a failing base-key release the
line still sleeps and the session ends without a fatal error. -/
theorem c2_short_circuit :
    (∀ (ok : Backend) (hist : List BCall) (chord : Chord),
      key_down ok hist chord = attemptSeq ok hist (specDownSeq chord) ∧
      key_up ok hist chord = attemptSeq ok hist (specUpSeq chord)) ∧
    runLines failRelC initSt [] [("key ctrl+c").data] =
      (initSt,
       [Ev.call (BCall.press (Keyboard.key Key.LeftControl)),
        Ev.call (BCall.press (Keyboard.key Key.C)), Ev.call BCall.sync,
        Ev.sleep 8, Ev.call (BCall.release (Keyboard.key Key.C)),
        Ev.warn ("key up error: backend failure"), Ev.sleep 2], none) := by
  refine ⟨fun ok hist chord => ⟨key_down_eq_attempt ok hist chord,
    key_up_eq_attempt ok hist chord⟩, by decide⟩

/-! ### Lemmas about the chord parser -/

theorem splitPlus_ne_nil (s : List Char) : splitPlus s ≠ [] := by
  cases s with
  | nil => simp [splitPlus]
  | cons c cs =>
    simp only [splitPlus]
    split <;> simp

theorem applyMods_ne_error_msg (ps : List (List Char)) (chord : Chord)
    (msg : String) (hmsg : msg.length < 18) :
    applyMods ps chord ≠ .error msg := by
  induction ps generalizing chord with
  | nil => simp [applyMods]
  | cons p rest ih =>
    simp only [applyMods]
    split_ifs <;> try exact ih _
    intro h
    have heq : ("unknown modifier: " ++ p.asString) = msg := by
      simpa using h
    have hlen := congrArg String.length heq
    rw [String.length_append] at hlen
    have h18 : ("unknown modifier: ").length = 18 := rfl
    omega

/-- C10: for every input string (including the empty one) and every
registry, splitting on `+` yields at least one segment, so indexing the last
segment is in bounds, and the dedicated `empty chord` error branch guarded
by `parts.is_empty()` is unreachable: `parse_chord` never returns that
error (and, being a total function, never panics). -/
theorem c10_empty_chord_unreachable (s : List Char)
    (keys : List (String × Keyboard)) :
    splitPlus s ≠ [] ∧ parse_chord s keys ≠ .error ("empty chord") := by
  refine ⟨splitPlus_ne_nil s, ?_⟩
  unfold parse_chord
  rw [if_neg (splitPlus_ne_nil s)]
  cases hlk : List.lookup (toLowerStr ((splitPlus s).getLastD [])).asString keys with
  | none =>
    simp only [hlk]
    intro h
    have heq : ("impossible key for layout: " ++ ((splitPlus s).getLastD []).asString)
        = "empty chord" := by simpa using h
    have hlen := congrArg String.length heq
    rw [String.length_append] at hlen
    have h27 : ("impossible key for layout: ").length = 27 := rfl
    have h11 : ("empty chord").length = 11 := rfl
    omega
  | some key =>
    simp only [hlk]
    exact applyMods_ne_error_msg _ _ _ (by decide)

theorem parse_empty_token :
    parse_chord ("").data init_linux_keys =
      .error ("impossible key for layout: ") := rfl

theorem parse_plus_token :
    parse_chord ("+").data init_linux_keys =
      .error ("impossible key for layout: ") := rfl

/-- C3 counterexample: `parse("")` and `parse("+")` do fail, but neither
failure is the empty-chord error: splitting on `+` always yields at least
one (empty) segment, so both fall into the key-lookup failure instead. -/
theorem c3_counterexample :
    parse_chord ("").data init_linux_keys ≠ .error ("empty chord") ∧
    parse_chord ("+").data init_linux_keys ≠ .error ("empty chord") := by
  constructor
  · rw [parse_empty_token]
    intro h
    injection h with h2
    exact absurd h2 (by decide)
  · rw [parse_plus_token]
    intro h
    injection h with h2
    exact absurd h2 (by decide)

/-- C3 (amended): `parse("")` and `parse("+")` both fail, but with the
unresolved-key error class (`impossible key for layout:` with the empty key
name), not the empty-chord class: the `EmptyChord` branch is unreachable. -/
theorem c3_empty_token_errors :
    parse_chord ("").data init_linux_keys =
      .error ("impossible key for layout: ") ∧
    parse_chord ("+").data init_linux_keys =
      .error ("impossible key for layout: ") :=
  ⟨parse_empty_token, parse_plus_token⟩

/-! ### Claims about the text translator -/

/-- Each uppercase ASCII letter paired with its unshifted counterpart. -/
def upperPairs : List (Char × Char) :=
  [('A','a'), ('B','b'), ('C','c'), ('D','d'), ('E','e'), ('F','f'),
   ('G','g'), ('H','h'), ('I','i'), ('J','j'), ('K','k'), ('L','l'),
   ('M','m'), ('N','n'), ('O','o'), ('P','p'), ('Q','q'), ('R','r'),
   ('S','s'), ('T','t'), ('U','u'), ('V','v'), ('W','w'), ('X','x'),
   ('Y','y'), ('Z','z')]

/-- Each character of the shifted symbol set paired with the unshifted
character sharing the same physical key. -/
def shiftedPairs : List (Char × Char) :=
  [('!','1'), ('@','2'), ('#','3'), ('$','4'), ('%','5'), ('^','6'),
   ('&','7'), ('*','8'), ('(','9'), (')','0'), ('_','-'), ('+','='),
   (Char.ofNat 123,'['), (Char.ofNat 125,']'), (':',';'),
   (Char.ofNat 34, Char.ofNat 39), ('~', Char.ofNat 96),
   ('|', Char.ofNat 92), ('<',','), ('>','.'), ('?','/')]

/-- C9: for every uppercase ASCII letter and every character of the shifted
symbol set, `char_to_chord` yields the same base key as its unshifted
counterpart, but with shift = true (and the counterpart translates with
shift = false). -/
theorem c9_shifted_translate :
    ∀ p ∈ upperPairs ++ shiftedPairs,
      (char_to_chord p.1 init_linux_keys).map Chord.key =
        (char_to_chord p.2 init_linux_keys).map Chord.key ∧
      (char_to_chord p.1 init_linux_keys).map Chord.shift = some true ∧
      (char_to_chord p.2 init_linux_keys).map Chord.shift = some false := by
  decide

/-- Witness for C9 at the pair `('A', 'a')`. -/
theorem c9_witness :
    (char_to_chord 'A' init_linux_keys).map Chord.key =
      (char_to_chord 'a' init_linux_keys).map Chord.key ∧
    (char_to_chord 'A' init_linux_keys).map Chord.shift = some true ∧
    (char_to_chord 'a' init_linux_keys).map Chord.shift = some false :=
  c9_shifted_translate ('A','a') (by decide)

/-! ### Claims about the interpreter loop -/

/-- C5: in a `key`/`keydown`/`keyup` line, a chord token that fails to parse
contributes exactly one warning: no backend call is made for it, the session
state and backend history are untouched by it, and the remaining tokens of
the line are processed exactly as they would have been without it. -/
theorem c5_invalid_token_skipped :
    ∀ (ok : Backend) (st : St) (hist : List BCall) (bad : List Char)
      (rest : List (List Char)) (e : String),
      parse_chord bad init_linux_keys = .error e →
      keyFields ok st hist (bad :: rest) =
        ((keyFields ok st hist rest).1,
         Ev.warn e :: (keyFields ok st hist rest).2) ∧
      downFields ok st hist (bad :: rest) =
        ((downFields ok st hist rest).1,
         Ev.warn e :: (downFields ok st hist rest).2) ∧
      upFields ok st hist (bad :: rest) =
        ((upFields ok st hist rest).1,
         Ev.warn e :: (upFields ok st hist rest).2) := by
  intro ok st hist bad rest e h
  refine ⟨?_, ?_, ?_⟩ <;> simp [keyFields, downFields, upFields, h]

/-- Witness for C5: on the line `key xyz+a a` the invalid token `xyz+a`
produces only its warning, and the valid token `a` is still executed. -/
theorem c5_witness :
    keyFields allOk initSt [] [("xyz+a").data, ("a").data] =
      ((keyFields allOk initSt [] [("a").data]).1,
       Ev.warn ("unknown modifier: xyz") ::
         (keyFields allOk initSt [] [("a").data]).2) :=
  (c5_invalid_token_skipped allOk initSt [] (("xyz+a").data) [("a").data]
    ("unknown modifier: xyz") rfl).1

/-- C6: a payload of `keydelay` or `typedelay` that does not parse as a
number produces exactly one warning and leaves the session state (both
delays) and the backend history unchanged. -/
theorem c6_malformed_delay_unchanged :
    ∀ (ok : Backend) (st : St) (hist : List BCall) (s : List Char),
      parseDelay (trimBoth s) = none →
      doLine ok st hist (("keydelay ").data ++ s) =
        .ok st hist
          [Ev.warn (("invalid delay: ") ++ (("keydelay ").data ++ s).asString)] ∧
      doLine ok st hist (("typedelay ").data ++ s) =
        .ok st hist
          [Ev.warn (("invalid delay: ") ++ (("typedelay ").data ++ s).asString)] := by
  intro ok st hist s h
  constructor
  · show (match parseDelay (trimBoth s) with
          | some d => Outcome.ok { st with keydelay := f64ToU64 d } hist []
          | none => Outcome.ok st hist
              [Ev.warn (("invalid delay: ") ++ (("keydelay ").data ++ s).asString)]) = _
    rw [h]
  · show (match parseDelay (trimBoth s) with
          | some d => Outcome.ok { st with typedelay := f64ToU64 d } hist []
          | none => Outcome.ok st hist
              [Ev.warn (("invalid delay: ") ++ (("typedelay ").data ++ s).asString)]) = _
    rw [h]

/-- Witness for C6 at the malformed payload `abc`. -/
theorem c6_witness :
    doLine allOk initSt [] (("keydelay ").data ++ ("abc").data) =
      .ok initSt []
        [Ev.warn (("invalid delay: ") ++
          (("keydelay ").data ++ ("abc").data).asString)] :=
  (c6_malformed_delay_unchanged allOk initSt [] (("abc").data) rfl).1

theorem keydelay_line_sets (ok : Backend) (st : St) (hist : List BCall)
    (s : List Char) (q : Rat) (h : parseDelay (trimBoth s) = some q) :
    doLine ok st hist (("keydelay ").data ++ s) =
      .ok { st with keydelay := f64ToU64 q } hist [] := by
  show (match parseDelay (trimBoth s) with
        | some d => Outcome.ok { st with keydelay := f64ToU64 d } hist []
        | none => Outcome.ok st hist
            [Ev.warn (("invalid delay: ") ++ (("keydelay ").data ++ s).asString)]) = _
  rw [h]

theorem parseDelay_zero_point_five :
    parseDelay (trimBoth (("0.5").data)) = some ((1 : Rat)/2) := by
  have h : parseDelay (trimBoth (("0.5").data)) =
      some (((digitsToNat (("0").data) : Rat) +
        (digitsToNat (("5").data) : Rat) / (10 : Rat) ^ (1 : Nat)) *
          (10 : Rat) ^ (0 : Int)) := rfl
  have h0 : digitsToNat (("0").data) = 0 := rfl
  have h5 : digitsToNat (("5").data) = 5 := rfl
  rw [h, h0, h5]
  norm_num

theorem parseDelay_fifty :
    parseDelay (trimBoth (("50").data)) = some (50 : Rat) := by
  have h : parseDelay (trimBoth (("50").data)) =
      some (((digitsToNat (("50").data) : Rat) +
        (digitsToNat ([] : List Char) : Rat) / (10 : Rat) ^ (0 : Nat)) *
          (10 : Rat) ^ (0 : Int)) := rfl
  have h50 : digitsToNat (("50").data) = 50 := rfl
  have h0 : digitsToNat ([] : List Char) = 0 := rfl
  rw [h, h50, h0]
  norm_num

theorem repF64_half : repF64 ((1 : Rat)/2) := by
  refine ⟨1, -1, ?_, by norm_num, by norm_num, by norm_num⟩
  norm_num

theorem repF64_fifty : repF64 (50 : Rat) := by
  refine ⟨50, 0, ?_, by norm_num, by norm_num, by norm_num⟩
  norm_num

theorem f64ToU64_half : f64ToU64 ((1 : Rat)/2) = 0 := by
  norm_num [f64ToU64]

theorem f64ToU64_fifty : f64ToU64 (50 : Rat) = 50 := by
  norm_num [f64ToU64]
  decide

/-- C4 counterexample: the payload `0.5` is accepted by the numeric parser
with exact value one half — a value exactly representable in binary64, so
the program's `parse::<f64>` returns precisely it — but the interpreter
stores `keydelay = 0` whole milliseconds (the `f64 as u64` cast inside
`Duration::from_millis` truncates), so the session keydelay is not set to
"that many milliseconds". -/
theorem c4_counterexample :
    parseDelay (trimBoth ("0.5").data) = some ((1 : Rat)/2) ∧
    repF64 ((1 : Rat)/2) ∧
    (runLines allOk initSt [] [("keydelay 0.5").data]).1.keydelay = 0 ∧
    ((0 : Rat) ≠ (1 : Rat)/2) := by
  refine ⟨parseDelay_zero_point_five, repF64_half, ?_, by norm_num⟩
  have h1 : doLine allOk initSt [] (("keydelay 0.5").data) =
      .ok { keydelay := 0, typedelay := 2 } [] [] := by
    have h := keydelay_line_sets allOk initSt [] (("0.5").data) ((1 : Rat)/2)
      parseDelay_zero_point_five
    rw [f64ToU64_half] at h
    exact h
  have h2 : runLines allOk initSt [] [("keydelay 0.5").data] =
      (match doLine allOk initSt [] (("keydelay 0.5").data) with
       | .fatal m => (initSt, ([] : List Ev), some m)
       | .ok st1 hist1 evs =>
         let r := runLines allOk st1 hist1 []
         (r.1, evs ++ r.2.1, r.2.2)) := rfl
  rw [h2, h1]
  rfl

/-- C4 (amended): for a `keydelay` payload in the finite-number grammar
(optional sign, digits, optional fraction, optional exponent — not the
`inf`/`NaN` spellings) whose exact value is representable in binary64 (so
the correctly-rounded `parse::<f64>` returns exactly that value), the
session keydelay is set to that value truncated toward zero to whole
milliseconds, for the rest of the session; fractional payloads are accepted
but their sub-millisecond part is discarded.  Integral payloads take effect
exactly: after `keydelay 50`, `key a` sleeps 50 ms after the release
instead of the prior default 2 ms. -/
theorem c4_keydelay_truncated :
    (∀ (ok : Backend) (st : St) (hist : List BCall) (s : List Char) (q : Rat),
      parseDelay (trimBoth s) = some q →
      repF64 q →
      doLine ok st hist (("keydelay ").data ++ s) =
        .ok { st with keydelay := f64ToU64 q } hist []) ∧
    runLines allOk initSt [] [("keydelay 50").data, ("key a").data] =
      ({ keydelay := 50, typedelay := 2 },
       [Ev.call (BCall.press (Keyboard.key Key.A)), Ev.call BCall.sync,
        Ev.sleep 8, Ev.call (BCall.release (Keyboard.key Key.A)),
        Ev.call BCall.sync, Ev.sleep 50], none) := by
  refine ⟨fun ok st hist s q h _ => keydelay_line_sets ok st hist s q h, ?_⟩
  have h1 : doLine allOk initSt [] (("keydelay 50").data) =
      .ok { keydelay := 50, typedelay := 2 } [] [] := by
    have h := keydelay_line_sets allOk initSt [] (("50").data) (50 : Rat)
      parseDelay_fifty
    rw [f64ToU64_fifty] at h
    exact h
  have h2 : runLines allOk initSt [] [("keydelay 50").data, ("key a").data] =
      (match doLine allOk initSt [] (("keydelay 50").data) with
       | .fatal m => (initSt, ([] : List Ev), some m)
       | .ok st1 hist1 evs =>
         let r := runLines allOk st1 hist1 [("key a").data]
         (r.1, evs ++ r.2.1, r.2.2)) := rfl
  rw [h2, h1]
  decide

/-- Witness for C4 at the payload `50`. -/
theorem c4_witness :
    doLine allOk initSt [] (("keydelay ").data ++ ("50").data) =
      .ok { initSt with keydelay := f64ToU64 50 } [] [] :=
  c4_keydelay_truncated.1 allOk initSt [] (("50").data) 50 parseDelay_fifty
    repF64_fifty

/-! ### Fatal conditions -/

theorem dropWhile_head_not (p : Char → Bool) (l : List Char) (c : Char)
    (rest : List Char) (h : l.dropWhile p = c :: rest) : p c = false := by
  induction l with
  | nil => simp [List.dropWhile] at h
  | cons a l ih =>
    rw [List.dropWhile_cons] at h
    by_cases hp : p a = true
    · rw [if_pos hp] at h
      exact ih h
    · rw [if_neg hp] at h
      cases h
      simpa using hp

theorem splitWSAux_ne_nil (cs : List Char) (acc : List Char) (h : acc ≠ []) :
    splitWSAux cs acc ≠ [] := by
  induction cs generalizing acc with
  | nil => simp [splitWSAux, h]
  | cons c cs ih =>
    simp only [splitWSAux]
    by_cases hw : isWS c = true
    · rw [if_pos hw, if_neg h]
      simp
    · rw [if_neg hw]
      exact ih (c :: acc) (by simp)

theorem splitWS_cons_ne_nil (c : Char) (cs : List Char) (h : isWS c = false) :
    splitWS (c :: cs) ≠ [] := by
  simp only [splitWS, splitWSAux]
  rw [if_neg (by simp [h])]
  exact splitWSAux_ne_nil cs [c] (by simp)

/-- C7: a line whose opcode is not one of the six recognized opcodes makes
the interpreter abort fatally (`panic`, `Unknown operation`) instead of
warning and continuing; and a `keydelay`/`type`/`typedelay` line whose
required payload is entirely absent aborts fatally with the respective
panic message. -/
theorem c7_fatal_conditions :
    (∀ (ok : Backend) (st : St) (hist : List BCall) (line : List Char),
      trimStart line ≠ [] →
      ((splitWS (trimStart line)).headD []).asString ∉
        (["key", "keydown", "keyup", "keydelay", "type", "typedelay"] : List String) →
      doLine ok st hist line = .fatal ("Unknown operation")) ∧
    (∀ (ok : Backend) (st : St) (hist : List BCall),
      doLine ok st hist (("keydelay").data) = .fatal ("Delay missing") ∧
      doLine ok st hist (("type").data) = .fatal ("Missing string to type") ∧
      doLine ok st hist (("typedelay").data) = .fatal ("Missing typedelay arguments")) := by
  constructor
  · intro ok st hist line hne hop
    rcases htext : trimStart line with _ | ⟨c, rest⟩
    · exact absurd htext hne
    have hc : isWS c = false := dropWhile_head_not isWS line c rest htext
    rcases hsp : splitWS (c :: rest) with _ | ⟨op, ops⟩
    · exact absurd hsp (splitWS_cons_ne_nil c rest hc)
    rw [htext, hsp] at hop
    simp only [List.headD_cons, List.mem_cons, List.not_mem_nil, or_false] at hop
    push_neg at hop
    obtain ⟨h1, h2, h3, h4, h5, h6⟩ := hop
    simp only [doLine]
    rw [htext, if_neg (by simp), hsp]
    simp only [if_neg h1, if_neg h2, if_neg h3, if_neg h4, if_neg h5, if_neg h6]
  · intro ok st hist
    exact ⟨rfl, rfl, rfl⟩

/-- Witness for C7 at the unrecognized opcode line `frobnicate x`. -/
theorem c7_witness :
    doLine allOk initSt [] (("frobnicate x").data) = .fatal ("Unknown operation") :=
  c7_fatal_conditions.1 allOk initSt [] (("frobnicate x").data)
    (by decide) (by decide)

/-! ### Implicit shift for uppercase key segments -/

theorem applyMods_shift_mono (ps : List (List Char)) (chord chord2 : Chord)
    (h : applyMods ps chord = .ok chord2) (hs : chord.shift = true) :
    chord2.shift = true := by
  induction ps generalizing chord with
  | nil =>
    simp only [applyMods, Except.ok.injEq] at h
    subst h
    exact hs
  | cons p rest ih =>
    simp only [applyMods] at h
    split_ifs at h <;>
      first
        | exact ih _ h hs
        | exact ih _ h rfl

/-- C8: whenever `parse_chord` succeeds on a token whose key segment is a
single uppercase ASCII letter, the resulting chord has the shift flag set;
and this implicit shift combines with, rather than replaces, an explicit
`shift` modifier segment: `shift+A`, `A` and `a` all resolve to the key of
`a`, the first two with shift set and the last without. -/
theorem c8_implicit_shift :
    (∀ (keys : List (String × Keyboard)) (s : List Char) (c : Char)
      (chord : Chord),
      parse_chord s keys = .ok chord →
      (splitPlus s).getLastD [] = [c] →
      rustIsUppercase c = true →
      chord.shift = true) ∧
    parse_chord (("shift+A").data) init_linux_keys =
      .ok { super_key := false, altgr := false, ctrl := false, alt := false
            shift := true, key := Keyboard.key Key.A } ∧
    parse_chord (("A").data) init_linux_keys =
      .ok { super_key := false, altgr := false, ctrl := false, alt := false
            shift := true, key := Keyboard.key Key.A } ∧
    parse_chord (("a").data) init_linux_keys =
      .ok { super_key := false, altgr := false, ctrl := false, alt := false
            shift := false, key := Keyboard.key Key.A } := by
  refine ⟨?_, rfl, rfl, rfl⟩
  intro keys s c chord hp hlast hupper
  simp only [parse_chord] at hp
  rw [if_neg (splitPlus_ne_nil s), hlast] at hp
  cases hlk : List.lookup (toLowerStr [c]).asString keys with
  | none => rw [hlk] at hp; cases hp
  | some key =>
    rw [hlk] at hp
    have hc90 : c.toNat ≤ 90 := by
      have h := hupper
      simp only [rustIsUppercase, Bool.and_eq_true, decide_eq_true_eq] at h
      exact h.2
    have hsz : charUtf8Size c = 1 := by
      unfold charUtf8Size
      rw [if_pos (by omega)]
    have hguard : (utf8Len [c] == 1 &&
        rustIsUppercase (([c] : List Char).headD ' ')) = true := by
      simp [utf8Len, hsz, hupper]
    have hp2 : applyMods (splitPlus s).dropLast
        (if (utf8Len [c] == 1 && rustIsUppercase (([c] : List Char).headD ' '))
            = true then
          { Chord.new key with shift := true }
        else Chord.new key) = .ok chord := hp
    rw [if_pos hguard] at hp2
    exact applyMods_shift_mono _ _ _ hp2 rfl

/-- Witness for C8 at the token `A`. -/
theorem c8_witness :
    ({ super_key := false, altgr := false, ctrl := false, alt := false
       shift := true, key := Keyboard.key Key.A } : Chord).shift = true :=
  c8_implicit_shift.1 init_linux_keys (("A").data) 'A'
    { super_key := false, altgr := false, ctrl := false, alt := false
      shift := true, key := Keyboard.key Key.A } rfl rfl rfl
